import Mathlib

/-!
Verification of the dt-hack urban tree planting repository's enrichment and
batch-processing components against its natural-language specification.

The embedding covers:
* `analyze_spot_with_gemini_vision` / `process_single_spot` from
  `ReLeaf_Agent/mcp/server.py` (concurrent Street View + Gemini Vision
  fan-out, fence-tolerant JSON parsing, summary aggregation);
* `GroundLevelDetector.analyze_location` / `analyze_critical_spots` from
  `ReLeaf_Agent/mcp/urban_tree_planting/core/ground_tree_detector.py`;
* `TreePlantingPipeline.process_batch` from
  `dev/urban_tree_planting/pipeline/processor.py`;
* the vegetation/shadow feature detector (modelled from the spec, the
  implementing module is not part of the sources).

External effects (network image download, the vision model, YOLO inference,
`json.loads`) are modelled as explicit oracle parameters; each per-spot
outcome is a pure function of the spot and its own oracle answers, exactly
mirroring the control flow of the Python source.  Strings are `List Char`;
Python floats are idealized as `ℚ`.
-/

/-! ## Python string primitives used by the enrichment parser -/

/-- The whitespace characters removed by Python's `str.strip()`. -/
def isSpaceChar (c : Char) : Bool :=
  c = ' ' || c = '\n' || c = '\t' || c = '\r' || c = '\x0b' || c = '\x0c'

/-- Drop leading whitespace (the front half of `str.strip()`). -/
def dropSpace : List Char → List Char
  | [] => []
  | c :: rest => if isSpaceChar c then dropSpace rest else c :: rest

/-- Embedding of Python `str.strip()`: remove leading and trailing whitespace. -/
def pyStrip (s : List Char) : List Char :=
  (dropSpace (dropSpace s).reverse).reverse

/-- Embedding of Python `str.startswith(sep)`. -/
def pyStartsWith : List Char → List Char → Bool
  | [], _ => true
  | _ :: _, [] => false
  | a :: as, b :: bs => a == b && pyStartsWith as bs

/-- Locate the first occurrence of `sep` in `s`; return the part before it and
the part after it (the occurrence itself removed).  `none` when `sep` never
occurs.  This is the primitive underlying Python `str.split(sep)`. -/
def splitFirst (sep : List Char) : List Char → Option (List Char × List Char)
  | [] => if pyStartsWith sep [] then some ([], []) else none
  | c :: rest =>
    if pyStartsWith sep (c :: rest) then some ([], (c :: rest).drop sep.length)
    else
      match splitFirst sep rest with
      | some (b, a) => some (c :: b, a)
      | none => none

/-- Embedding of Python `s.split(sep)[0]`: the text before the first
occurrence of `sep` (all of `s` when `sep` does not occur). -/
def pySplitGet0 (sep s : List Char) : List Char :=
  match splitFirst sep s with
  | some (b, _) => b
  | none => s

/-- Embedding of Python `s.split(sep)[1]`: the text between the first and the
second occurrence of `sep` (or everything after the first occurrence when
there is no second one).  In the source this is only evaluated after an
`s.startswith(sep)` guard, so an occurrence always exists; the no-occurrence
fallback returns `s` to keep the function total. -/
def pySplitGet1 (sep s : List Char) : List Char :=
  match splitFirst sep s with
  | some (_, a) =>
    match splitFirst sep a with
    | some (b, _) => b
    | none => a
  | none => s

/-- The markdown fence marker checked at server.py:617. -/
def fenceMarker : List Char := "```".data

/-- The json-tagged fence marker checked at server.py:615. -/
def fenceJsonMarker : List Char := "```json".data

/-- Embedding of server.py lines 614-618: remove a markdown code fence
(```` ```json ```` or ```` ``` ````) wrapping the model's response, if
present, and strip the extracted segment. -/
def stripFences (t : List Char) : List Char :=
  if pyStartsWith fenceJsonMarker t then
    pyStrip (pySplitGet0 fenceMarker (pySplitGet1 fenceJsonMarker t))
  else if pyStartsWith fenceMarker t then
    pyStrip (pySplitGet0 fenceMarker (pySplitGet1 fenceMarker t))
  else t

/-- The backtick character (head of the fence marker). -/
def btChar : Char := fenceMarker.headD ' '

/-- Payload `p` contains no backtick character at all (in particular no fence). -/
def noBacktick (p : List Char) : Bool := p.all (fun c => !(c == btChar))

/-- A payload wrapped in a ```` ```json ```` fence. -/
def wrapJson (p : List Char) : List Char :=
  fenceJsonMarker ++ '\n' :: p ++ '\n' :: fenceMarker

/-- A payload wrapped in a plain ```` ``` ```` fence. -/
def wrapPlain (p : List Char) : List Char :=
  fenceMarker ++ '\n' :: p ++ '\n' :: fenceMarker

/-! ## Vision fan-out of `analyze_spot_with_gemini_vision` (server.py) -/

/-- The fields of the structured vision record relevant to aggregation
(server.py lines 666-700); `tree_count` missing from the parsed JSON is read
as `0` via `.get("tree_count", 0)`. -/
structure VisionRec where
  tree_count : Option Int
  planting_feasibility : Option (List Char)
  recommended_tree_count : Option Int
deriving DecidableEq

/-- An input spot dictionary as consumed by `process_single_spot`
(server.py lines 517-527): either a nested `coordinates` object or flat
latitude/longitude keys, plus optional metadata. -/
structure Spot where
  coordinates : Option (ℚ × ℚ)
  latitude : Option ℚ
  lat : Option ℚ
  longitude : Option ℚ
  lon : Option ℚ
  priority_score : Option ℚ
  area_m2 : Option ℚ
  spot_id : Option Nat
deriving DecidableEq

/-- Python `a or b` on two optional numbers: a present but *zero* value is
falsy and falls through to `b` (the server uses
`spot.get("latitude") or spot.get("lat")`). -/
def pyOr (a b : Option ℚ) : Option ℚ :=
  match a with
  | some v => if v = 0 then b else some v
  | none => b

/-- Coordinate extraction of server.py lines 517-523. -/
def extractCoords (s : Spot) : Option ℚ × Option ℚ :=
  match s.coordinates with
  | some c => (some c.1, some c.2)
  | none => (pyOr s.latitude s.lat, pyOr s.longitude s.lon)

/-- The spot passes the `lat is None or lon is None` guard at server.py:525. -/
def hasCoordsS (s : Spot) : Bool :=
  (extractCoords s).1.isSome && (extractCoords s).2.isSome

/-- Outcome of the Street View block (server.py lines 530-568): the
`search_panoramas`/`get_panorama_async` calls either raise (caught by the
surrounding `except`), find no panorama, or deliver an image. -/
inductive SVOutcome where
  | raise (e : List Char)
  | noPanos
  | image
deriving DecidableEq

/-- Outcome of the Gemini call (server.py lines 605-610): either
`generate_content` raises (caught by the surrounding `except`) or a response
text is returned. -/
inductive GeminiOutcome where
  | raise (e : List Char)
  | response (t : List Char)
deriving DecidableEq

/-- Oracles for the external effects of a fan-out batch, indexed by the
spot's position: Street View outcome, Gemini outcome, and the (global)
`json.loads` stdlib parse. -/
structure SpotEnv where
  sv : Nat → SVOutcome
  gemini : Nat → GeminiOutcome
  jsonLoads : List Char → Except (List Char) VisionRec

/-- A per-spot result dictionary as built by `process_single_spot`; absent
dictionary keys are `none`. -/
structure SpotResult where
  spot_number : Nat
  lat : ℚ
  lon : ℚ
  street_view_available : Bool
  vision_analysis : Option VisionRec
  vision_analysis_error : Option (List Char)
  error : Option (List Char)
  priority_score : Option ℚ
  area_m2 : Option ℚ
  spot_id : Option Nat
deriving DecidableEq

/-- Result of the no-panorama branch (server.py lines 536-549). -/
def noPanoResult (i : Nat) (la lo : ℚ) (s : Spot) : SpotResult :=
  { spot_number := i + 1, lat := la, lon := lo, street_view_available := false,
    vision_analysis := none, vision_analysis_error := none, error := none,
    priority_score := s.priority_score, area_m2 := s.area_m2,
    spot_id := s.spot_id }

/-- Result of the Street View exception branch (server.py lines 556-568);
its `spot_info` carries no `spot_id` key. -/
def svErrorResult (i : Nat) (la lo : ℚ) (e : List Char) (s : Spot) : SpotResult :=
  { spot_number := i + 1, lat := la, lon := lo, street_view_available := false,
    vision_analysis := none, vision_analysis_error := none, error := some e,
    priority_score := s.priority_score, area_m2 := s.area_m2, spot_id := none }

/-- Result of a successful vision analysis (server.py lines 625-637). -/
def visionOkResult (i : Nat) (la lo : ℚ) (v : VisionRec) (s : Spot) : SpotResult :=
  { spot_number := i + 1, lat := la, lon := lo, street_view_available := true,
    vision_analysis := some v, vision_analysis_error := none, error := none,
    priority_score := s.priority_score, area_m2 := s.area_m2,
    spot_id := s.spot_id }

/-- Result of the Gemini exception branch (server.py lines 639-651), which
also absorbs `json.loads` parse failures; no `spot_id` key. -/
def visionErrorResult (i : Nat) (la lo : ℚ) (e : List Char) (s : Spot) : SpotResult :=
  { spot_number := i + 1, lat := la, lon := lo, street_view_available := true,
    vision_analysis := none, vision_analysis_error := some e, error := none,
    priority_score := s.priority_score, area_m2 := s.area_m2, spot_id := none }

/-- Dispatch on the `json.loads` outcome (server.py lines 620-651). -/
def parsedResult (pr : Except (List Char) VisionRec) (i : Nat) (la lo : ℚ)
    (s : Spot) : SpotResult :=
  match pr with
  | Except.ok v => visionOkResult i la lo v s
  | Except.error e => visionErrorResult i la lo e s

/-- The Gemini try-block (server.py lines 604-651): strip fences from the
response text, parse it, or record the raised error. -/
def geminiResult (go : GeminiOutcome)
    (jl : List Char → Except (List Char) VisionRec)
    (i : Nat) (la lo : ℚ) (s : Spot) : SpotResult :=
  match go with
  | GeminiOutcome.raise e => visionErrorResult i la lo e s
  | GeminiOutcome.response t => parsedResult (jl (stripFences (pyStrip t))) i la lo s

/-- The body of `process_single_spot` after coordinate extraction, as a
function of this spot's own oracle answers only. -/
def spotOutcome (svo : SVOutcome) (go : GeminiOutcome)
    (jl : List Char → Except (List Char) VisionRec)
    (i : Nat) (la lo : ℚ) (s : Spot) : SpotResult :=
  match svo with
  | SVOutcome.raise e => svErrorResult i la lo e s
  | SVOutcome.noPanos => noPanoResult i la lo s
  | SVOutcome.image => geminiResult go jl i la lo s

/-- Function `process_single_spot(i, spot)` (server.py lines 512-651): `none` when the
spot is skipped for missing coordinates (line 527), otherwise the per-spot
result dictionary. -/
def processSpotCore (svo : SVOutcome) (go : GeminiOutcome)
    (jl : List Char → Except (List Char) VisionRec)
    (i : Nat) (s : Spot) : Option SpotResult :=
  match extractCoords s with
  | (some la, some lo) => some (spotOutcome svo go jl i la lo s)
  | _ => none

/-- Function `process_single_spot` with its effects drawn from the batch oracles. -/
def processSingleSpot (env : SpotEnv) (i : Nat) (s : Spot) : Option SpotResult :=
  processSpotCore (env.sv i) (env.gemini i) env.jsonLoads i s

/-- The gather-and-filter of server.py lines 655-657, spelled out
recursively: each spot of the sliced list is processed with its original
index, `None` returns are dropped, order is preserved (as `asyncio.gather`
preserves task order). -/
def analyzeSpotsAux (env : SpotEnv) : Nat → List Spot → List SpotResult
  | _, [] => []
  | i, s :: rest =>
    match processSingleSpot env i s with
    | some r => r :: analyzeSpotsAux env (i + 1) rest
    | none => analyzeSpotsAux env (i + 1) rest

/-- The whole fan-out of `analyze_spot_with_gemini_vision`
(server.py lines 653-657): slice to `maxSpots`, process every spot, keep the
non-`None` results in order. -/
def analyzeSpots (env : SpotEnv) (spots : List Spot) (maxSpots : Nat) :
    List SpotResult :=
  analyzeSpotsAux env 0 (spots.take maxSpots)

/-! ## Summary aggregation (server.py lines 666-701) -/

/-- Reading `r["vision_analysis"].get("tree_count", 0)` of a result entry. -/
def treeCountOf (r : SpotResult) : Int :=
  match r.vision_analysis with
  | some v => v.tree_count.getD 0
  | none => 0

/-- The filter `successful_analyses = [r for r in results if r.get("vision_analysis")]`
(server.py line 667). -/
def successfulOf (rs : List SpotResult) : List SpotResult :=
  rs.filter (fun r => r.vision_analysis.isSome)

/-- Round to 2 decimal places (`round(x, 2)`, idealized over `ℚ`). -/
def round2 (q : ℚ) : ℚ := ((⌊q * 100 + 1 / 2⌋ : Int) : ℚ) / 100

/-- The aggregate summary object of the response (server.py lines 683-687). -/
structure Summary where
  spots_with_trees : Nat
  spots_without_trees : Nat
  total_trees_detected : Int
  average_trees_per_spot : ℚ
deriving DecidableEq

/-- Aggregation over the already-filtered successful analyses
(server.py lines 668-673 and 683-687). -/
def summaryFromSuccessful (succ : List SpotResult) : Summary :=
  { spots_with_trees := succ.countP (fun r => decide (0 < treeCountOf r)),
    spots_without_trees :=
      succ.length - succ.countP (fun r => decide (0 < treeCountOf r)),
    total_trees_detected := (succ.map treeCountOf).sum,
    average_trees_per_spot :=
      round2 (if succ.length ≠ 0 then
        ((succ.map treeCountOf).sum : ℚ) / (succ.length : ℚ) else 0) }

/-- The summary computed from the full results list. -/
def mkSummary (rs : List SpotResult) : Summary :=
  summaryFromSuccessful (successfulOf rs)

/-! ## `GroundLevelDetector` (ground_tree_detector.py) -/

/-- A YOLO tree detection (class `TreeDetection`, lines 19-41): bounding box
corners and confidence; the stored `area` is derived from the box. -/
structure Detection where
  x1 : ℚ
  y1 : ℚ
  x2 : ℚ
  y2 : ℚ
  confidence : ℚ
deriving DecidableEq

/-- Derived `TreeDetection.area = (x2 - x1) * (y2 - y1)` (line 32). -/
def Detection.area (d : Detection) : ℚ := (d.x2 - d.x1) * (d.y2 - d.y1)

/-- Oracles for the detector's external effects:
`download_street_view_panorama` (which catches every exception and returns
`None`, lines 100-122) is summarized by whether an image is available at the
coordinate, and `detect_trees_in_image` (which catches every exception and
returns `[]`, lines 143-189) by the list of detections it yields. -/
structure DetEnv where
  imageAt : ℚ → ℚ → Bool
  detections : ℚ → ℚ → List Detection

/-- Round to 3 decimal places (`round(x, 3)`, idealized over `ℚ`). -/
def round3 (q : ℚ) : ℚ := ((⌊q * 1000 + 1 / 2⌋ : Int) : ℚ) / 1000

/-- The result dictionary of `GroundLevelDetector.analyze_location`
(lines 209-259); `error` is only present in the no-image case. -/
structure LocationAnalysis where
  lat : ℚ
  lon : ℚ
  image_downloaded : Bool
  total_trees : Nat
  detections : List Detection
  average_confidence : ℚ
  has_existing_trees : Bool
  error : Option (List Char)
deriving DecidableEq

/-- The fixed no-imagery record returned at lines 226-234. -/
def noImageResult (la lo : ℚ) : LocationAnalysis :=
  { lat := la, lon := lo, image_downloaded := false, total_trees := 0,
    detections := [], average_confidence := 0, has_existing_trees := false,
    error := some ("No Street View imagery available".data) }

/-- Sum of detection confidences (line 246). -/
def sumConf (ds : List Detection) : ℚ := (ds.map Detection.confidence).sum

/-- Method `GroundLevelDetector.analyze_location` (lines 191-259): download the
panorama (no image: fixed record), run YOLO, compute the statistics of
lines 244-256. -/
def analyzeLocation (env : DetEnv) (la lo : ℚ) : LocationAnalysis :=
  if env.imageAt la lo then
    { lat := la, lon := lo, image_downloaded := true,
      total_trees := (env.detections la lo).length,
      detections := env.detections la lo,
      average_confidence :=
        round3 (if 0 < (env.detections la lo).length then
          sumConf (env.detections la lo) / ((env.detections la lo).length : ℚ)
        else 0),
      has_existing_trees := decide (0 < (env.detections la lo).length),
      error := none }
  else noImageResult la lo

/-- A spot dictionary for `analyze_critical_spots` (lines 261-319):
flat `lat`/`lon` keys plus optional metadata. -/
structure GroundSpot where
  lat : Option ℚ
  lon : Option ℚ
  priority_score : Option ℚ
  vegetation_deficit : Option ℚ
  bare_land_pct : Option ℚ
  area_name : Option (List Char)
deriving DecidableEq

/-- The spot passes the missing-coordinates guard at lines 294-296. -/
def hasCoordsG (s : GroundSpot) : Bool := s.lat.isSome && s.lon.isSome

/-- One entry of the list returned by `analyze_critical_spots`: the
location analysis augmented with the `spot_info` metadata of lines 308-314. -/
structure GroundResult where
  analysis : LocationAnalysis
  spot_number : Nat
  priority_score : Option ℚ
deriving DecidableEq

/-- The enumerate-skip-append loop of lines 289-316. -/
def analyzeCriticalSpotsAux (env : DetEnv) : Nat → List GroundSpot → List GroundResult
  | _, [] => []
  | i, s :: rest =>
    match s.lat, s.lon with
    | some la, some lo =>
      { analysis := analyzeLocation env la lo, spot_number := i + 1,
        priority_score := s.priority_score } :: analyzeCriticalSpotsAux env (i + 1) rest
    | _, _ => analyzeCriticalSpotsAux env (i + 1) rest

/-- The slicing of lines 282-287: `if max_spots:` is Python truthiness, so
both `None` and `0` analyze *all* spots. -/
def spotsToAnalyze (spots : List GroundSpot) (maxSpots : Option Nat) :
    List GroundSpot :=
  match maxSpots with
  | some m => if m = 0 then spots else spots.take m
  | none => spots

/-- Method `GroundLevelDetector.analyze_critical_spots` (lines 261-319). -/
def analyzeCriticalSpots (env : DetEnv) (spots : List GroundSpot)
    (maxSpots : Option Nat) : List GroundResult :=
  analyzeCriticalSpotsAux env 0 (spotsToAnalyze spots maxSpots)

/-! ## `TreePlantingPipeline.process_batch` (processor.py) -/

/-- A `Location` as far as batch processing observes it: its identity and
anchor (models/location.py is only consumed opaquely here). -/
structure Location where
  name : List Char
  lat : ℚ
  lon : ℚ
deriving DecidableEq

/-- Method `TreePlantingPipeline.process_batch` (processor.py lines 113-163) with
`process_location` as an oracle (it logs and re-raises on failure, lines
106-111).  The first component is the returned list of successfully
processed locations; the second models the failure summary `(name, error)`
pairs collected at line 150 and reported at lines 157-160. -/
def processBatch (proc : Location → Except (List Char) Location) :
    List Location → List Location × List (List Char × List Char)
  | [] => ([], [])
  | l :: ls =>
    let rest := processBatch proc ls
    match proc l with
    | Except.ok r => (r :: rest.1, rest.2)
    | Except.error e => (rest.1, (l.name, e) :: rest.2)

/-! ## FeatureDetector (vegetation and shadow masks) -/

/-- Modelled from the spec: the class `VegetationDetector` in
`core/detector.py`, invoked by `TreePlantingPipeline._detect_features`
(processor.py lines 235-256), is not among the sources; spec §4.2 defines
vegetation as a green/red normalized difference above a fixed threshold and
shadow as low brightness AND low saturation EXCLUDING vegetated pixels.
A raster pixel's visible-light channels. -/
structure Pixel where
  red : ℚ
  green : ℚ
  blue : ℚ
deriving DecidableEq

/-- Modelled from the spec: visible-light NDVI proxy `(G - R) / (G + R)`
(processor.py line 240), guarded against a zero denominator. -/
def ndviOf (p : Pixel) : ℚ :=
  if p.green + p.red = 0 then 0 else (p.green - p.red) / (p.green + p.red)

/-- Modelled from the spec: a pixel above the fixed NDVI threshold `vt` is
flagged vegetated. -/
def isVegetated (vt : ℚ) (p : Pixel) : Bool := decide (vt < ndviOf p)

/-- Modelled from the spec: pixel brightness (mean of the channels). -/
def brightnessOf (p : Pixel) : ℚ := (p.red + p.green + p.blue) / 3

/-- Modelled from the spec: color saturation (channel spread). -/
def saturationOf (p : Pixel) : ℚ :=
  max p.red (max p.green p.blue) - min p.red (min p.green p.blue)

/-- Modelled from the spec: shadow flag — brightness below `bt` AND
saturation below `st`, EXCLUDING any pixel already flagged vegetated. -/
def isShadowed (vt bt st : ℚ) (p : Pixel) : Bool :=
  decide (brightnessOf p < bt) && decide (saturationOf p < st) &&
    !(isVegetated vt p)

/-- Modelled from the spec: `detect(rasterImage)` returns the shadow mask,
the vegetation mask and the NDVI array over the pixel grid. -/
def detectMasks (vt bt st : ℚ) (raster : List (List Pixel)) :
    List (List Bool) × List (List Bool) × List (List ℚ) :=
  (raster.map (fun row => row.map (isShadowed vt bt st)),
   raster.map (fun row => row.map (isVegetated vt)),
   raster.map (fun row => row.map ndviOf))

/-- Whether two aligned boolean masks flag some common pixel. -/
def masksOverlap (a b : List (List Bool)) : Bool :=
  (a.zip b).any (fun rp => (rp.1.zip rp.2).any (fun q => q.1 && q.2))

/-! ## Helper lemmas: per-spot processing -/

/-- A per-spot result entry is "resolved": it carries a vision record, or it
is marked image-unavailable, or it records a per-spot error. -/
def resolvedB (r : SpotResult) : Bool :=
  r.vision_analysis.isSome || !r.street_view_available ||
    r.vision_analysis_error.isSome

theorem resolvedB_parsedResult (pr : Except (List Char) VisionRec) (i : Nat)
    (la lo : ℚ) (s : Spot) : resolvedB (parsedResult pr i la lo s) = true := by
  cases pr <;> rfl

theorem resolvedB_spotOutcome (svo : SVOutcome) (go : GeminiOutcome)
    (jl : List Char → Except (List Char) VisionRec) (i : Nat) (la lo : ℚ)
    (s : Spot) : resolvedB (spotOutcome svo go jl i la lo s) = true := by
  cases svo with
  | raise e => rfl
  | noPanos => rfl
  | image =>
    cases go with
    | raise e => rfl
    | response t => exact resolvedB_parsedResult _ _ _ _ _

theorem spot_number_parsedResult (pr : Except (List Char) VisionRec) (i : Nat)
    (la lo : ℚ) (s : Spot) : (parsedResult pr i la lo s).spot_number = i + 1 := by
  cases pr <;> rfl

theorem spot_number_spotOutcome (svo : SVOutcome) (go : GeminiOutcome)
    (jl : List Char → Except (List Char) VisionRec) (i : Nat) (la lo : ℚ)
    (s : Spot) : (spotOutcome svo go jl i la lo s).spot_number = i + 1 := by
  cases svo with
  | raise e => rfl
  | noPanos => rfl
  | image =>
    cases go with
    | raise e => rfl
    | response t => exact spot_number_parsedResult _ _ _ _ _

theorem processSingleSpot_none_iff (env : SpotEnv) (i : Nat) (s : Spot) :
    processSingleSpot env i s = none ↔ hasCoordsS s = false := by
  unfold processSingleSpot processSpotCore hasCoordsS
  rcases h : extractCoords s with ⟨l₁, l₂⟩
  cases l₁ <;> cases l₂ <;> simp

theorem processSingleSpot_isSome (env : SpotEnv) (i : Nat) (s : Spot) :
    (processSingleSpot env i s).isSome = hasCoordsS s := by
  cases hc : hasCoordsS s with
  | false =>
    rw [(processSingleSpot_none_iff env i s).mpr hc]
    rfl
  | true =>
    cases hp : processSingleSpot env i s with
    | some r => rfl
    | none =>
      rw [(processSingleSpot_none_iff env i s).mp hp] at hc
      exact absurd hc (by simp)

theorem processSingleSpot_eq_some (env : SpotEnv) (i : Nat) (s : Spot)
    (la lo : ℚ) (h : extractCoords s = (some la, some lo)) :
    processSingleSpot env i s =
      some (spotOutcome (env.sv i) (env.gemini i) env.jsonLoads i la lo s) := by
  unfold processSingleSpot processSpotCore
  rw [h]

theorem processSingleSpot_resolved (env : SpotEnv) (i : Nat) (s : Spot)
    (r : SpotResult) (h : processSingleSpot env i s = some r) :
    resolvedB r = true := by
  unfold processSingleSpot processSpotCore at h
  rcases hc : extractCoords s with ⟨l₁, l₂⟩
  rw [hc] at h
  cases l₁ with
  | none => cases l₂ <;> simp at h
  | some la =>
    cases l₂ with
    | none => simp at h
    | some lo =>
      simp only [Option.some.injEq] at h
      rw [← h]
      exact resolvedB_spotOutcome _ _ _ _ _ _ _

theorem processSingleSpot_spot_number (env : SpotEnv) (i : Nat) (s : Spot)
    (r : SpotResult) (h : processSingleSpot env i s = some r) :
    r.spot_number = i + 1 := by
  unfold processSingleSpot processSpotCore at h
  rcases hc : extractCoords s with ⟨l₁, l₂⟩
  rw [hc] at h
  cases l₁ with
  | none => cases l₂ <;> simp at h
  | some la =>
    cases l₂ with
    | none => simp at h
    | some lo =>
      simp only [Option.some.injEq] at h
      rw [← h]
      exact spot_number_spotOutcome _ _ _ _ _ _ _

/-! ## Helper lemmas: the fan-out batch -/

/-- Every spot in the list passes the coordinate guard. -/
def allCoordsS (l : List Spot) : Bool := l.all hasCoordsS

theorem analyzeSpotsAux_length_le (env : SpotEnv) (l : List Spot) (i : Nat) :
    (analyzeSpotsAux env i l).length ≤ l.length := by
  induction l generalizing i with
  | nil => simp [analyzeSpotsAux]
  | cons s rest ih =>
    unfold analyzeSpotsAux
    cases processSingleSpot env i s with
    | some r =>
      simpa using Nat.succ_le_succ (ih (i + 1))
    | none =>
      exact Nat.le_trans (ih (i + 1)) (Nat.le_succ _)

theorem analyzeSpotsAux_length_filter (env : SpotEnv) (l : List Spot) (i : Nat) :
    (analyzeSpotsAux env i l).length = (l.filter hasCoordsS).length := by
  induction l generalizing i with
  | nil => rfl
  | cons s rest ih =>
    unfold analyzeSpotsAux
    cases hp : processSingleSpot env i s with
    | some r =>
      have hc : hasCoordsS s = true := by
        have := processSingleSpot_isSome env i s
        rw [hp] at this
        exact this.symm
      simp [List.filter_cons, hc, ih (i + 1)]
    | none =>
      have hc : hasCoordsS s = false := (processSingleSpot_none_iff env i s).mp hp
      simp [List.filter_cons, hc, ih (i + 1)]

theorem analyzeSpotsAux_length_all (env : SpotEnv) (l : List Spot) (i : Nat)
    (h : allCoordsS l = true) : (analyzeSpotsAux env i l).length = l.length := by
  rw [analyzeSpotsAux_length_filter]
  have : l.filter hasCoordsS = l := List.filter_eq_self.mpr (by
    intro a ha
    exact (List.all_eq_true.mp h) a ha)
  rw [this]

theorem analyzeSpotsAux_get? (env : SpotEnv) (l : List Spot) (i n : Nat)
    (h : allCoordsS l = true) :
    (analyzeSpotsAux env i l).get? n =
      (l.get? n).bind (fun s => processSingleSpot env (i + n) s) := by
  induction l generalizing i n with
  | nil => simp [analyzeSpotsAux]
  | cons s rest ih =>
    have hall : hasCoordsS s = true ∧ allCoordsS rest = true := by
      constructor
      · exact (List.all_eq_true.mp h) s (List.mem_cons_self s rest)
      · exact List.all_eq_true.mpr (fun a ha =>
          (List.all_eq_true.mp h) a (List.mem_cons_of_mem s ha))
    cases hp : processSingleSpot env i s with
    | none =>
      rw [(processSingleSpot_none_iff env i s).mp hp] at hall
      exact absurd hall.1 (by simp)
    | some r =>
      unfold analyzeSpotsAux
      rw [hp]
      cases n with
      | zero =>
        simpa using hp.symm
      | succ n =>
        have := ih (i + 1) n hall.2
        rw [List.get?_cons_succ, this]
        have harith : i + 1 + n = i + (n + 1) := by omega
        rw [harith, List.get?_cons_succ]

theorem analyzeSpotsAux_mem (env : SpotEnv) (l : List Spot) (i : Nat)
    (r : SpotResult) (h : r ∈ analyzeSpotsAux env i l) :
    ∃ k s, l.get? k = some s ∧ hasCoordsS s = true ∧
      processSingleSpot env (i + k) s = some r := by
  induction l generalizing i with
  | nil => simp [analyzeSpotsAux] at h
  | cons s rest ih =>
    unfold analyzeSpotsAux at h
    cases hp : processSingleSpot env i s with
    | some r' =>
      rw [hp] at h
      rcases List.mem_cons.mp h with h1 | h2
      · refine ⟨0, s, rfl, ?_, ?_⟩
        · have := processSingleSpot_isSome env i s
          rw [hp] at this
          exact this.symm
        · rw [Nat.add_zero, hp, h1]
      · rcases ih (i + 1) h2 with ⟨k, s', hg, hc, hr⟩
        refine ⟨k + 1, s', ?_, hc, ?_⟩
        · simpa using hg
        · rw [show i + (k + 1) = i + 1 + k by omega]
          exact hr
    | none =>
      rw [hp] at h
      rcases ih (i + 1) h with ⟨k, s', hg, hc, hr⟩
      refine ⟨k + 1, s', ?_, hc, ?_⟩
      · simpa using hg
      · rw [show i + (k + 1) = i + 1 + k by omega]
        exact hr

/-- Point update of an oracle function. -/
def updateAt {α : Type} (f : Nat → α) (j : Nat) (v : α) : Nat → α :=
  fun n => if n = j then v else f n

theorem processSingleSpot_update (env : SpotEnv) (j n : Nat) (s : Spot)
    (sv' : SVOutcome) (g' : GeminiOutcome) (hne : n ≠ j) :
    processSingleSpot
      (SpotEnv.mk (updateAt env.sv j sv') (updateAt env.gemini j g')
        env.jsonLoads) n s = processSingleSpot env n s := by
  unfold processSingleSpot
  simp [updateAt, hne]

/-! ## Helper lemmas: ground-level batch -/

theorem analyzeCriticalSpotsAux_length_le (env : DetEnv) (l : List GroundSpot)
    (i : Nat) : (analyzeCriticalSpotsAux env i l).length ≤ l.length := by
  induction l generalizing i with
  | nil => simp [analyzeCriticalSpotsAux]
  | cons s rest ih =>
    unfold analyzeCriticalSpotsAux
    cases s.lat with
    | none => exact Nat.le_trans (ih (i + 1)) (Nat.le_succ _)
    | some la =>
      cases s.lon with
      | none => exact Nat.le_trans (ih (i + 1)) (Nat.le_succ _)
      | some lo => simpa using Nat.succ_le_succ (ih (i + 1))

theorem analyzeCriticalSpotsAux_length_filter (env : DetEnv)
    (l : List GroundSpot) (i : Nat) :
    (analyzeCriticalSpotsAux env i l).length = (l.filter hasCoordsG).length := by
  induction l generalizing i with
  | nil => rfl
  | cons s rest ih =>
    unfold analyzeCriticalSpotsAux
    cases hla : s.lat with
    | none => simp [List.filter_cons, hasCoordsG, hla, ih (i + 1)]
    | some la =>
      cases hlo : s.lon with
      | none => simp [List.filter_cons, hasCoordsG, hla, hlo, ih (i + 1)]
      | some lo => simp [List.filter_cons, hasCoordsG, hla, hlo, ih (i + 1)]

theorem analyzeCriticalSpotsAux_mem (env : DetEnv) (l : List GroundSpot)
    (i : Nat) (r : GroundResult) (h : r ∈ analyzeCriticalSpotsAux env i l) :
    ∃ k s la lo, l.get? k = some s ∧ s.lat = some la ∧ s.lon = some lo ∧
      r = { analysis := analyzeLocation env la lo, spot_number := i + k + 1,
            priority_score := s.priority_score } := by
  induction l generalizing i with
  | nil => simp [analyzeCriticalSpotsAux] at h
  | cons s rest ih =>
    unfold analyzeCriticalSpotsAux at h
    cases hla : s.lat with
    | none =>
      rw [hla] at h
      rcases ih (i + 1) h with ⟨k, s', la, lo, hg, h1, h2, h3⟩
      refine ⟨k + 1, s', la, lo, by simpa using hg, h1, h2, ?_⟩
      rw [h3]
      simp [show i + 1 + k = i + (k + 1) by omega]
    | some la =>
      cases hlo : s.lon with
      | none =>
        rw [hla, hlo] at h
        rcases ih (i + 1) h with ⟨k, s', la', lo, hg, h1, h2, h3⟩
        refine ⟨k + 1, s', la', lo, by simpa using hg, h1, h2, ?_⟩
        rw [h3]
        simp [show i + 1 + k = i + (k + 1) by omega]
      | some lo =>
        rw [hla, hlo] at h
        rcases List.mem_cons.mp h with h1 | h2
        · exact ⟨0, s, la, lo, rfl, hla, hlo, by simpa using h1⟩
        · rcases ih (i + 1) h2 with ⟨k, s', la', lo', hg, hx, hy, hz⟩
          refine ⟨k + 1, s', la', lo', by simpa using hg, hx, hy, ?_⟩
          rw [hz]
          simp [show i + 1 + k = i + (k + 1) by omega]

/-! ## Helper lemmas: pipeline batch -/

theorem processBatch_spec (proc : Location → Except (List Char) Location)
    (locs : List Location) :
    (processBatch proc locs).1 =
        locs.filterMap (fun l => (proc l).toOption) ∧
      (processBatch proc locs).2 =
        locs.filterMap (fun l =>
          match proc l with
          | Except.error e => some (l.name, e)
          | Except.ok _ => none) := by
  induction locs with
  | nil => exact ⟨rfl, rfl⟩
  | cons l ls ih =>
    unfold processBatch
    cases hp : proc l with
    | ok r => simp [List.filterMap_cons, hp, Except.toOption, ih.1, ih.2]
    | error e => simp [List.filterMap_cons, hp, Except.toOption, ih.1, ih.2]


/-! ## Helper lemmas: Python string primitives -/

theorem pyStartsWith_append_self (sep t : List Char) :
    pyStartsWith sep (sep ++ t) = true := by
  induction sep with
  | nil => rfl
  | cons a as ih => simp [pyStartsWith, ih]

theorem splitFirst_append_self (sep t : List Char) (h : sep ≠ []) :
    splitFirst sep (sep ++ t) = some ([], t) := by
  cases sep with
  | nil => exact absurd rfl h
  | cons a as =>
    have hs : pyStartsWith (a :: as) (a :: (as ++ t)) = true := by
      have := pyStartsWith_append_self (a :: as) t
      simpa using this
    have hd : (a :: (as ++ t)).drop (a :: as).length = t := by
      simp [List.drop_left]
    rw [List.cons_append]
    unfold splitFirst
    rw [if_pos hs, hd]

theorem pyStartsWith_false_head (sep : List Char) (b : Char) (bs : List Char)
    (hsep : sep.headD ' ' = btChar) (hne : sep ≠ [])
    (hb : (b == btChar) = false) : pyStartsWith sep (b :: bs) = false := by
  cases sep with
  | nil => exact absurd rfl hne
  | cons a as =>
    have ha : a = btChar := by simpa using hsep
    have : (a == b) = false := by
      rw [ha]
      rw [beq_eq_false_iff_ne] at hb ⊢
      exact fun hx => hb hx.symm
    simp [pyStartsWith, this]

theorem noBacktick_cons (b : Char) (bs : List Char) :
    noBacktick (b :: bs) = ((b == btChar) = false ∧ noBacktick bs = true) := by
  simp [noBacktick]

theorem splitFirst_none_of_noBacktick (sep u : List Char)
    (hsep : sep.headD ' ' = btChar) (hne : sep ≠ [])
    (h : noBacktick u = true) : splitFirst sep u = none := by
  induction u with
  | nil =>
    cases sep with
    | nil => exact absurd rfl hne
    | cons a as => rfl
  | cons b bs ih =>
    rw [noBacktick_cons] at h
    unfold splitFirst
    rw [pyStartsWith_false_head sep b bs hsep hne h.1]
    simp [ih h.2]

theorem splitFirst_marker_closing (u : List Char) (h : noBacktick u = true) :
    splitFirst fenceMarker (u ++ fenceMarker) = some (u, []) := by
  induction u with
  | nil => decide
  | cons b bs ih =>
    rw [noBacktick_cons] at h
    rw [List.cons_append]
    unfold splitFirst
    rw [pyStartsWith_false_head fenceMarker b (bs ++ fenceMarker)
      (by decide) (by decide) h.1]
    simp [ih h.2]

theorem splitFirst_json_none (u : List Char) (h : noBacktick u = true) :
    splitFirst fenceJsonMarker (u ++ fenceMarker) = none := by
  induction u with
  | nil => decide
  | cons b bs ih =>
    rw [noBacktick_cons] at h
    rw [List.cons_append]
    unfold splitFirst
    rw [pyStartsWith_false_head fenceJsonMarker b (bs ++ fenceMarker)
      (by decide) (by decide) h.1]
    simp [ih h.2]

theorem dropSpace_append (s t : List Char) :
    dropSpace (s ++ t) =
      if dropSpace s = [] then dropSpace t else dropSpace s ++ t := by
  induction s with
  | nil => simp [dropSpace]
  | cons c s ih =>
    by_cases hc : isSpaceChar c = true
    · simp [dropSpace, hc, ih]
    · simp [dropSpace, hc]

theorem pyStrip_cons_space (c : Char) (s : List Char)
    (h : isSpaceChar c = true) : pyStrip (c :: s) = pyStrip s := by
  simp [pyStrip, dropSpace, h]

theorem pyStrip_append_space (s : List Char) (c : Char)
    (h : isSpaceChar c = true) : pyStrip (s ++ [c]) = pyStrip s := by
  unfold pyStrip
  rw [dropSpace_append]
  by_cases he : dropSpace s = []
  · simp [he, dropSpace, h]
  · rw [if_neg he]
    have : (dropSpace s ++ [c]).reverse = c :: (dropSpace s).reverse := by
      simp
    rw [this, dropSpace, if_pos h]

theorem dropSpace_nospace (c : Char) (s : List Char)
    (h : isSpaceChar c = false) : dropSpace (c :: s) = c :: s := by
  simp [dropSpace, h]

theorem pyStrip_cons_append (c c' : Char) (m : List Char)
    (h1 : isSpaceChar c = false) (h2 : isSpaceChar c' = false) :
    pyStrip (c :: (m ++ [c'])) = c :: (m ++ [c']) := by
  unfold pyStrip
  rw [dropSpace_nospace c (m ++ [c']) h1]
  have hrev : (c :: (m ++ [c'])).reverse = c' :: (m.reverse ++ [c]) := by
    simp
  rw [hrev, dropSpace_nospace c' (m.reverse ++ [c]) h2, ← hrev,
    List.reverse_reverse]

theorem noBacktick_append (s t : List Char) :
    noBacktick (s ++ t) = (noBacktick s && noBacktick t) := by
  simp [noBacktick]

theorem noBacktick_dropSpace (s : List Char) (h : noBacktick s = true) :
    noBacktick (dropSpace s) = true := by
  induction s with
  | nil => exact h
  | cons c cs ih =>
    rw [noBacktick_cons] at h
    unfold dropSpace
    by_cases hc : isSpaceChar c = true
    · rw [if_pos hc]
      exact ih h.2
    · rw [if_neg hc, noBacktick_cons]
      exact ⟨h.1, h.2⟩

theorem noBacktick_reverse (s : List Char) :
    noBacktick s.reverse = noBacktick s := by
  simp [noBacktick]

theorem noBacktick_pyStrip (s : List Char) (h : noBacktick s = true) :
    noBacktick (pyStrip s) = true := by
  unfold pyStrip
  rw [noBacktick_reverse]
  apply noBacktick_dropSpace
  rw [noBacktick_reverse]
  exact noBacktick_dropSpace s h

theorem pyStartsWith_false_of_noBacktick (sep w : List Char)
    (hsep : sep.headD ' ' = btChar) (hne : sep ≠ [])
    (h : noBacktick w = true) : pyStartsWith sep w = false := by
  cases w with
  | nil =>
    cases sep with
    | nil => exact absurd rfl hne
    | cons a as => rfl
  | cons b bs =>
    rw [noBacktick_cons] at h
    exact pyStartsWith_false_head sep b bs hsep hne h.1

theorem stripFences_of_noBacktick (w : List Char) (h : noBacktick w = true) :
    stripFences w = w := by
  unfold stripFences
  rw [pyStartsWith_false_of_noBacktick fenceJsonMarker w (by decide) (by decide) h,
    pyStartsWith_false_of_noBacktick fenceMarker w (by decide) (by decide) h]
  simp

theorem wrapJson_shape (p : List Char) :
    wrapJson p = btChar ::
      ((btChar :: btChar :: 'j' :: 's' :: 'o' :: 'n' :: '\n' ::
        (p ++ '\n' :: btChar :: btChar :: [])) ++ [btChar]) := by
  have h1 : fenceJsonMarker =
      btChar :: btChar :: btChar :: 'j' :: 's' :: 'o' :: 'n' :: [] := by decide
  have h2 : fenceMarker = btChar :: btChar :: btChar :: [] := by decide
  rw [wrapJson, h1, h2]
  simp

theorem wrapPlain_shape (p : List Char) :
    wrapPlain p = btChar ::
      ((btChar :: btChar :: '\n' ::
        (p ++ '\n' :: btChar :: btChar :: [])) ++ [btChar]) := by
  have h2 : fenceMarker = btChar :: btChar :: btChar :: [] := by decide
  rw [wrapPlain, h2]
  simp

theorem pyStrip_wrapJson (p : List Char) :
    pyStrip (wrapJson p) = wrapJson p := by
  rw [wrapJson_shape]
  exact pyStrip_cons_append btChar btChar _ (by decide) (by decide)

theorem pyStrip_wrapPlain (p : List Char) :
    pyStrip (wrapPlain p) = wrapPlain p := by
  rw [wrapPlain_shape]
  exact pyStrip_cons_append btChar btChar _ (by decide) (by decide)

theorem noBacktick_mid (p : List Char) (h : noBacktick p = true) :
    noBacktick ('\n' :: (p ++ ['\n'])) = true := by
  rw [noBacktick_cons]
  refine ⟨by decide, ?_⟩
  rw [noBacktick_append, h]
  decide

theorem mid_append_marker (p : List Char) :
    '\n' :: p ++ '\n' :: fenceMarker = ('\n' :: (p ++ ['\n'])) ++ fenceMarker := by
  simp

theorem pyStrip_mid (p : List Char) :
    pyStrip ('\n' :: (p ++ ['\n'])) = pyStrip p := by
  rw [pyStrip_cons_space '\n' _ (by decide),
    pyStrip_append_space p '\n' (by decide)]

theorem stripFences_wrapJson (p : List Char) (h : noBacktick p = true) :
    stripFences (wrapJson p) = pyStrip p := by
  have hu := noBacktick_mid p h
  have hpre : pyStartsWith fenceJsonMarker (wrapJson p) = true := by
    rw [wrapJson]
    exact pyStartsWith_append_self _ _
  have hs1 : splitFirst fenceJsonMarker (wrapJson p) =
      some ([], '\n' :: p ++ '\n' :: fenceMarker) := by
    rw [wrapJson]
    exact splitFirst_append_self _ _ (by decide)
  have hs2 : splitFirst fenceJsonMarker ('\n' :: p ++ '\n' :: fenceMarker) =
      none := by
    rw [mid_append_marker]
    exact splitFirst_json_none _ hu
  have hs3 : splitFirst fenceMarker ('\n' :: p ++ '\n' :: fenceMarker) =
      some ('\n' :: (p ++ ['\n']), []) := by
    rw [mid_append_marker]
    exact splitFirst_marker_closing _ hu
  unfold stripFences
  rw [if_pos hpre]
  unfold pySplitGet1
  rw [hs1]
  simp only [hs2]
  unfold pySplitGet0
  rw [hs3]
  exact pyStrip_mid p

theorem stripFences_wrapPlain (p : List Char) (h : noBacktick p = true) :
    stripFences (wrapPlain p) = pyStrip p := by
  have hu := noBacktick_mid p h
  have hprej : pyStartsWith fenceJsonMarker (wrapPlain p) = false := by
    have h1 : fenceJsonMarker =
        btChar :: btChar :: btChar :: 'j' :: 's' :: 'o' :: 'n' :: [] := by decide
    have h2 : wrapPlain p =
        btChar :: btChar :: btChar :: '\n' ::
          (p ++ '\n' :: btChar :: btChar :: btChar :: []) := by
      have hm : fenceMarker = btChar :: btChar :: btChar :: [] := by decide
      rw [wrapPlain, hm]
      simp
    rw [h1, h2]
    simp [pyStartsWith, show (('j' : Char) == '\n') = false from by decide]
  have hpre : pyStartsWith fenceMarker (wrapPlain p) = true := by
    rw [wrapPlain]
    exact pyStartsWith_append_self _ _
  have hs1 : splitFirst fenceMarker (wrapPlain p) =
      some ([], '\n' :: p ++ '\n' :: fenceMarker) := by
    rw [wrapPlain]
    exact splitFirst_append_self _ _ (by decide)
  have hs3 : splitFirst fenceMarker ('\n' :: p ++ '\n' :: fenceMarker) =
      some ('\n' :: (p ++ ['\n']), []) := by
    rw [mid_append_marker]
    exact splitFirst_marker_closing _ hu
  have hs4 : splitFirst fenceMarker ('\n' :: (p ++ ['\n'])) = none :=
    splitFirst_none_of_noBacktick fenceMarker _ (by decide) (by decide) hu
  unfold stripFences
  rw [hprej]
  simp only [Bool.false_eq_true, if_false]
  rw [if_pos hpre]
  unfold pySplitGet1
  rw [hs1]
  simp only [hs3]
  unfold pySplitGet0
  rw [hs4]
  exact pyStrip_mid p

/-! ## Concrete instances used by witnesses and counterexamples -/

/-- A `json.loads` oracle that rejects every payload. -/
def jlFail : List Char → Except (List Char) VisionRec :=
  fun _ => Except.error ("parse failure".data)

/-- A batch environment in which no spot has Street View coverage. -/
def envW : SpotEnv :=
  { sv := fun _ => SVOutcome.noPanos,
    gemini := fun _ => GeminiOutcome.raise ("unused".data),
    jsonLoads := jlFail }

/-- A spot with nested coordinates. -/
def spotW : Spot :=
  { coordinates := some (3, 101), latitude := none, lat := none,
    longitude := none, lon := none, priority_score := none,
    area_m2 := none, spot_id := none }

/-- A spot with no coordinates in any accepted key. -/
def spotNoCoords : Spot :=
  { coordinates := none, latitude := none, lat := none,
    longitude := none, lon := none, priority_score := none,
    area_m2 := none, spot_id := none }

/-- A detector environment with no imagery anywhere. -/
def envCNone : DetEnv :=
  { imageAt := fun _ _ => false, detections := fun _ _ => [] }

/-- A ground spot with coordinates. -/
def gspotW : GroundSpot :=
  { lat := some 3, lon := some 101, priority_score := none,
    vegetation_deficit := none, bare_land_pct := none, area_name := none }

/-- A ground spot with missing coordinates. -/
def gspotNoCoords : GroundSpot :=
  { lat := none, lon := none, priority_score := none,
    vegetation_deficit := none, bare_land_pct := none, area_name := none }

/-! ## Claims -/

/-- Claim C1: in the enrichment fan-out, every launched per-spot task (for a
spot passing the coordinate guard) resolves to an entry that is a vision
record or a recorded per-spot failure, the batch returns one entry per such
spot, and arbitrarily changing (e.g. failing) the external interactions of
one spot never changes any other spot's entry. -/
theorem c1_fanout_resolves_and_isolates :
    (∀ (env : SpotEnv) (spots : List Spot) (m : Nat) (r : SpotResult),
        r ∈ analyzeSpots env spots m → resolvedB r = true) ∧
    (∀ (env : SpotEnv) (spots : List Spot) (m : Nat),
        allCoordsS (spots.take m) = true →
        (analyzeSpots env spots m).length = (spots.take m).length) ∧
    (∀ (env : SpotEnv) (spots : List Spot) (m j : Nat) (sv' : SVOutcome)
        (g' : GeminiOutcome),
        allCoordsS (spots.take m) = true →
        ∀ n, n ≠ j →
          (analyzeSpots (SpotEnv.mk (updateAt env.sv j sv')
              (updateAt env.gemini j g') env.jsonLoads) spots m).get? n =
            (analyzeSpots env spots m).get? n) := by
  refine ⟨?_, ?_, ?_⟩
  · intro env spots m r hr
    rcases analyzeSpotsAux_mem env (spots.take m) 0 r hr with ⟨k, s, _, _, hp⟩
    exact processSingleSpot_resolved env (0 + k) s r hp
  · intro env spots m h
    exact analyzeSpotsAux_length_all env (spots.take m) 0 h
  · intro env spots m j sv' g' h n hn
    rw [analyzeSpots, analyzeSpotsAux_get? _ (spots.take m) 0 n h,
      analyzeSpots, analyzeSpotsAux_get? _ (spots.take m) 0 n h]
    cases (spots.take m).get? n with
    | none => rfl
    | some s =>
      show processSingleSpot _ (0 + n) s = processSingleSpot env (0 + n) s
      have h0 : (0 : Nat) + n = n := Nat.zero_add n
      rw [h0]
      exact processSingleSpot_update env j n s sv' g' hn

/-- Witness for C1 at a concrete one-spot batch. -/
theorem c1_fanout_resolves_and_isolates_w :
    allCoordsS ([spotW].take 1) = true ∧
      (analyzeSpots envW [spotW] 1).length = ([spotW].take 1).length :=
  ⟨by decide, c1_fanout_resolves_and_isolates.2.1 envW [spotW] 1 (by decide)⟩

/-- Claim C2 (amended): for every positive cap, both enrichment
implementations attempt at most `min(N, maxSpots)` spots and return at most
`min(N, maxSpots)` entries; the server implementation satisfies this for
every natural cap.  (As stated over *every* cap the claim fails: in the
ground detector a cap of `0` is falsy and disables slicing.) -/
theorem c2_cap_amended :
    (∀ (env : SpotEnv) (spots : List Spot) (m : Nat),
        (analyzeSpots env spots m).length ≤ min spots.length m) ∧
    (∀ (env : DetEnv) (spots : List GroundSpot) (m : Nat), 1 ≤ m →
        (analyzeCriticalSpots env spots (some m)).length ≤
          min spots.length m) := by
  constructor
  · intro env spots m
    have h1 := analyzeSpotsAux_length_le env (spots.take m) 0
    rw [List.length_take] at h1
    rw [analyzeSpots]
    calc (analyzeSpotsAux env 0 (spots.take m)).length
        ≤ min m spots.length := h1
      _ = min spots.length m := Nat.min_comm m spots.length
  · intro env spots m hm
    have hm0 : ¬ m = 0 := by omega
    rw [analyzeCriticalSpots, spotsToAnalyze, if_neg hm0]
    have h1 := analyzeCriticalSpotsAux_length_le env (spots.take m) 0
    rw [List.length_take] at h1
    calc (analyzeCriticalSpotsAux env 0 (spots.take m)).length
        ≤ min m spots.length := h1
      _ = min spots.length m := Nat.min_comm m spots.length

/-- Counterexample to C2 as stated: with the cap `maxSpots = 0` the ground
detector analyzes *all* spots (Python `if max_spots:` treats `0` as falsy),
so a one-spot input yields one result entry — more than the cap `0`. -/
theorem c2_cap_counterexample :
    (analyzeCriticalSpots envCNone [gspotW] (some 0)).length = 1 := by
  decide

/-- Witness for the amended C2 at a concrete positive cap. -/
theorem c2_cap_amended_w :
    1 ≤ 1 ∧ (analyzeCriticalSpots envCNone [gspotW] (some 1)).length ≤
      min ([gspotW] : List GroundSpot).length 1 :=
  ⟨by decide, c2_cap_amended.2 envCNone [gspotW] 1 (by decide)⟩

/-- Claim C3: a spot whose coordinate has no ground-level image gets a
per-spot entry marked unavailable (`street_view_available=false` /
`image_downloaded=false`) with a null vision record, the vision model (resp.
YOLO) is never consulted for it (the entry is independent of that oracle),
and the batch still returns it as an ordinary entry. -/
theorem c3_no_image_is_per_spot_outcome :
    (∀ (env : SpotEnv) (i : Nat) (s : Spot) (la lo : ℚ),
        extractCoords s = (some la, some lo) →
        env.sv i = SVOutcome.noPanos →
        processSingleSpot env i s = some (noPanoResult i la lo s) ∧
        (noPanoResult i la lo s).street_view_available = false ∧
        (noPanoResult i la lo s).vision_analysis = none ∧
        ∀ g' : Nat → GeminiOutcome,
          processSingleSpot (SpotEnv.mk env.sv g' env.jsonLoads) i s =
            processSingleSpot env i s) ∧
    (∀ (env : SpotEnv) (spots : List Spot) (m k : Nat) (s : Spot) (la lo : ℚ),
        allCoordsS (spots.take m) = true →
        (spots.take m).get? k = some s →
        extractCoords s = (some la, some lo) →
        env.sv k = SVOutcome.noPanos →
        (analyzeSpots env spots m).get? k = some (noPanoResult k la lo s)) ∧
    (∀ (env : DetEnv) (la lo : ℚ), env.imageAt la lo = false →
        analyzeLocation env la lo = noImageResult la lo ∧
        (noImageResult la lo).image_downloaded = false ∧
        (noImageResult la lo).detections = [] ∧
        ∀ d' : ℚ → ℚ → List Detection,
          analyzeLocation (DetEnv.mk env.imageAt d') la lo =
            analyzeLocation env la lo) := by
  refine ⟨?_, ?_, ?_⟩
  · intro env i s la lo hc hsv
    refine ⟨?_, rfl, rfl, ?_⟩
    · simp only [processSingleSpot, processSpotCore, hc, hsv, spotOutcome]
    · intro g'
      simp only [processSingleSpot, processSpotCore, hc, hsv, spotOutcome]
  · intro env spots m k s la lo hall hget hc hsv
    rw [analyzeSpots, analyzeSpotsAux_get? _ (spots.take m) 0 k hall, hget]
    show processSingleSpot env (0 + k) s = _
    rw [Nat.zero_add]
    simp only [processSingleSpot, processSpotCore, hc, hsv, spotOutcome]
  · intro env la lo him
    refine ⟨?_, rfl, rfl, ?_⟩
    · simp [analyzeLocation, him]
    · intro d'
      simp [analyzeLocation, him]

/-- Witness for C3 at a concrete no-imagery environment. -/
theorem c3_no_image_is_per_spot_outcome_w :
    envCNone.imageAt 3 101 = false ∧
      analyzeLocation envCNone 3 101 = noImageResult 3 101 :=
  ⟨rfl, (c3_no_image_is_per_spot_outcome.2.2 envCNone 3 101 rfl).1⟩

/-- Claim C4: the enrichment parser feeds `json.loads` the same payload
whether the model's response is bare, wrapped in ```` ``` ````, or wrapped
in ```` ```json ```` (for fence-free payloads); a parse failure is recorded
as `vision_analysis_error` on that spot's own entry with a null record; and
an arbitrary change to one spot's external interactions leaves every other
spot's entry unchanged. -/
theorem c4_fence_tolerant_parse :
    (∀ (p : List Char) (jl : List Char → Except (List Char) VisionRec),
        noBacktick p = true →
        stripFences (pyStrip (wrapJson p)) = pyStrip p ∧
        stripFences (pyStrip (wrapPlain p)) = pyStrip p ∧
        stripFences (pyStrip p) = pyStrip p ∧
        jl (stripFences (pyStrip (wrapJson p))) = jl (pyStrip p) ∧
        jl (stripFences (pyStrip (wrapPlain p))) = jl (pyStrip p)) ∧
    (∀ (env : SpotEnv) (i : Nat) (s : Spot) (la lo : ℚ) (t e : List Char),
        extractCoords s = (some la, some lo) →
        env.sv i = SVOutcome.image →
        env.gemini i = GeminiOutcome.response t →
        env.jsonLoads (stripFences (pyStrip t)) = Except.error e →
        processSingleSpot env i s = some (visionErrorResult i la lo e s) ∧
        (visionErrorResult i la lo e s).vision_analysis = none ∧
        (visionErrorResult i la lo e s).vision_analysis_error = some e) ∧
    (∀ (env : SpotEnv) (j n : Nat) (s : Spot) (sv' : SVOutcome)
        (g' : GeminiOutcome), n ≠ j →
        processSingleSpot (SpotEnv.mk (updateAt env.sv j sv')
            (updateAt env.gemini j g') env.jsonLoads) n s =
          processSingleSpot env n s) := by
  refine ⟨?_, ?_, ?_⟩
  · intro p jl h
    have h1 : stripFences (pyStrip (wrapJson p)) = pyStrip p := by
      rw [pyStrip_wrapJson]
      exact stripFences_wrapJson p h
    have h2 : stripFences (pyStrip (wrapPlain p)) = pyStrip p := by
      rw [pyStrip_wrapPlain]
      exact stripFences_wrapPlain p h
    have h3 : stripFences (pyStrip p) = pyStrip p :=
      stripFences_of_noBacktick _ (noBacktick_pyStrip p h)
    exact ⟨h1, h2, h3, by rw [h1], by rw [h2]⟩
  · intro env i s la lo t e hc hsv hg hjl
    refine ⟨?_, rfl, rfl⟩
    simp only [processSingleSpot, processSpotCore, hc, hsv, hg, spotOutcome,
      geminiResult, hjl, parsedResult]
  · intro env j n s sv' g' hn
    exact processSingleSpot_update env j n s sv' g' hn

/-- Witness for C4 at the concrete payload `42`. -/
theorem c4_fence_tolerant_parse_w :
    noBacktick ("42".data) = true ∧
      stripFences (pyStrip (wrapJson ("42".data))) = pyStrip ("42".data) :=
  ⟨by decide, (c4_fence_tolerant_parse.1 ("42".data) jlFail (by decide)).1⟩

/-- Claim C5: the aggregate summary is computed only over entries carrying a
vision record — removing any record-less entry (failed or image-less spot)
leaves every aggregate unchanged — and when no entry has a record all four
aggregates are zero (the average's division is guarded). -/
theorem c5_summary_over_valid_records_only :
    (∀ (rs₁ rs₂ : List SpotResult) (r : SpotResult),
        r.vision_analysis = none →
        mkSummary (rs₁ ++ r :: rs₂) = mkSummary (rs₁ ++ rs₂)) ∧
    (∀ rs : List SpotResult, successfulOf rs = [] →
        mkSummary rs = Summary.mk 0 0 0 0) := by
  constructor
  · intro rs₁ rs₂ r hr
    unfold mkSummary
    have : successfulOf (rs₁ ++ r :: rs₂) = successfulOf (rs₁ ++ rs₂) := by
      simp [successfulOf, List.filter_append, List.filter_cons, hr]
    rw [this]
  · intro rs hempty
    unfold mkSummary
    rw [hempty]
    show Summary.mk _ _ _ _ = Summary.mk 0 0 0 0
    have hr : round2 0 = 0 := by
      norm_num [round2]
    simp [summaryFromSuccessful, hr]

/-- Witness for C5: dropping a concrete record-less entry from a batch
leaves the summary unchanged. -/
theorem c5_summary_over_valid_records_only_w :
    (noPanoResult 0 3 101 spotW).vision_analysis = none ∧
      mkSummary ([] ++ noPanoResult 0 3 101 spotW :: []) = mkSummary ([] ++ []) :=
  ⟨rfl, c5_summary_over_valid_records_only.1 [] [] (noPanoResult 0 3 101 spotW) rfl⟩

/-- Helper: every location is accounted for by `process_batch`. -/
theorem processBatch_length (proc : Location → Except (List Char) Location)
    (locs : List Location) :
    (processBatch proc locs).1.length + (processBatch proc locs).2.length =
      locs.length := by
  induction locs with
  | nil => rfl
  | cons l ls ih =>
    unfold processBatch
    cases proc l with
    | ok r =>
      simp only [List.length_cons]
      omega
    | error e =>
      simp only [List.length_cons]
      omega

/-- Claim C6: `process_batch` continues past failing Locations — every
Location is processed, the returned list is exactly the successfully
processed ones in order, and the failure summary reported at the end lists
exactly the failed Locations with their name and error. -/
theorem c6_batch_continues_past_failures
    (proc : Location → Except (List Char) Location) (locs : List Location) :
    (processBatch proc locs).1 =
        locs.filterMap (fun l => (proc l).toOption) ∧
      (processBatch proc locs).2 =
        locs.filterMap (fun l =>
          match proc l with
          | Except.error e => some (l.name, e)
          | Except.ok _ => none) ∧
      (processBatch proc locs).1.length + (processBatch proc locs).2.length =
        locs.length :=
  ⟨(processBatch_spec proc locs).1, (processBatch_spec proc locs).2,
    processBatch_length proc locs⟩

/-- Helper: no single pixel is flagged both shadowed and vegetated. -/
theorem shadow_veg_pixel (vt bt st : ℚ) (p : Pixel) :
    (isShadowed vt bt st p && isVegetated vt p) = false := by
  unfold isShadowed
  cases isVegetated vt p <;> simp

/-- Claim C8: for every raster (and every threshold calibration), the shadow
mask and the vegetation mask produced by feature detection are disjoint —
no pixel is flagged both. -/
theorem c8_masks_disjoint (vt bt st : ℚ) (raster : List (List Pixel)) :
    masksOverlap (detectMasks vt bt st raster).1
      (detectMasks vt bt st raster).2.1 = false := by
  unfold masksOverlap detectMasks
  rw [List.zip_map']
  induction raster with
  | nil => rfl
  | cons row rest ih =>
    simp only [List.map_cons, List.any_cons, ih, Bool.or_false]
    rw [List.zip_map']
    induction row with
    | nil => rfl
    | cons x xs ihx =>
      simp only [List.map_cons, List.any_cons, ihx, Bool.or_false]
      exact shadow_veg_pixel vt bt st x

/-- Helper: rounding zero gives zero. -/
theorem round3_zero : round3 0 = 0 := by
  norm_num [round3]

/-- Claim C9: `analyze_location` always returns an internally consistent
record: `total_trees` equals the length of `detections`,
`has_existing_trees` holds exactly when `total_trees > 0`,
`average_confidence` is `0` when there are no detections (guarded division),
and the no-image case is the all-zero/false record. -/
theorem c9_analyze_location_consistent (env : DetEnv) (la lo : ℚ) :
    (analyzeLocation env la lo).total_trees =
        (analyzeLocation env la lo).detections.length ∧
      ((analyzeLocation env la lo).has_existing_trees = true ↔
        0 < (analyzeLocation env la lo).total_trees) ∧
      ((analyzeLocation env la lo).total_trees = 0 →
        (analyzeLocation env la lo).average_confidence = 0) ∧
      (env.imageAt la lo = false →
        analyzeLocation env la lo = noImageResult la lo) := by
  by_cases him : env.imageAt la lo = true
  · refine ⟨?_, ?_, ?_, ?_⟩
    · simp [analyzeLocation, him]
    · simp [analyzeLocation, him]
    · intro h0
      have hlen : (env.detections la lo).length = 0 := by
        simpa [analyzeLocation, him] using h0
      simp only [analyzeLocation, him, if_true]
      rw [if_neg (show ¬ 0 < (env.detections la lo).length by omega)]
      exact round3_zero
    · intro hfalse
      rw [him] at hfalse
      exact absurd hfalse (by simp)
  · have him' : env.imageAt la lo = false := by
      cases h : env.imageAt la lo
      · rfl
      · exact absurd h him
    refine ⟨?_, ?_, ?_, ?_⟩
    · simp [analyzeLocation, him', noImageResult]
    · simp [analyzeLocation, him', noImageResult]
    · intro _
      simp [analyzeLocation, him', noImageResult]
    · intro _
      simp [analyzeLocation, him']

/-- Witness for C9 at a concrete no-imagery environment. -/
theorem c9_analyze_location_consistent_w :
    (analyzeLocation envCNone 3 101).average_confidence = 0 :=
  (c9_analyze_location_consistent envCNone 3 101).2.2.1 rfl

/-- Helper: filtering out a present element shortens the list strictly. -/
theorem filter_length_lt {α : Type} (p : α → Bool) (l : List α) (a : α)
    (ha : a ∈ l) (hpa : p a = false) : (l.filter p).length < l.length := by
  induction l with
  | nil => cases ha
  | cons b bs ih =>
    rcases List.mem_cons.mp ha with h1 | h2
    · rw [← h1, List.filter_cons, if_neg (by simp [hpa])]
      exact Nat.lt_succ_of_le (List.length_filter_le p bs)
    · rw [List.filter_cons]
      by_cases hb : p b = true
      · rw [if_pos hb]
        simpa using Nat.succ_lt_succ (ih h2)
      · rw [if_neg hb]
        exact Nat.lt_succ_of_lt (ih h2)

/-- Claim C10: in both enrichment implementations a spot with missing
coordinates is skipped without raising: it contributes no entry (so the
result list is strictly shorter than the sliced input), while every produced
entry keeps the 1-based number of its original position in the slice. -/
theorem c10_missing_coords_skipped :
    (∀ (env : SpotEnv) (spots : List Spot) (m : Nat),
        (analyzeSpots env spots m).length =
            ((spots.take m).filter hasCoordsS).length ∧
          (∀ r ∈ analyzeSpots env spots m, ∃ k s,
            (spots.take m).get? k = some s ∧ hasCoordsS s = true ∧
              r.spot_number = k + 1) ∧
          (∀ (k : Nat) (s : Spot), (spots.take m).get? k = some s →
            hasCoordsS s = false →
            (∀ r ∈ analyzeSpots env spots m, r.spot_number ≠ k + 1) ∧
            (analyzeSpots env spots m).length < (spots.take m).length)) ∧
    (∀ (env : DetEnv) (spots : List GroundSpot) (ms : Option Nat),
        (analyzeCriticalSpots env spots ms).length =
            ((spotsToAnalyze spots ms).filter hasCoordsG).length ∧
          (∀ r ∈ analyzeCriticalSpots env spots ms, ∃ k s,
            (spotsToAnalyze spots ms).get? k = some s ∧ hasCoordsG s = true ∧
              r.spot_number = k + 1) ∧
          (∀ (k : Nat) (s : GroundSpot),
            (spotsToAnalyze spots ms).get? k = some s →
            hasCoordsG s = false →
            (∀ r ∈ analyzeCriticalSpots env spots ms, r.spot_number ≠ k + 1) ∧
            (analyzeCriticalSpots env spots ms).length <
              (spotsToAnalyze spots ms).length)) := by
  constructor
  · intro env spots m
    refine ⟨analyzeSpotsAux_length_filter env _ 0, ?_, ?_⟩
    · intro r hr
      rcases analyzeSpotsAux_mem env _ 0 r hr with ⟨k, s, hg, hc, hp⟩
      refine ⟨k, s, hg, hc, ?_⟩
      have := processSingleSpot_spot_number env (0 + k) s r hp
      simpa using this
    · intro k s hget hc
      constructor
      · intro r hr hnum
        rcases analyzeSpotsAux_mem env _ 0 r hr with ⟨k', s', hg', hc', hp'⟩
        have h1 : r.spot_number = k' + 1 := by
          have := processSingleSpot_spot_number env (0 + k') s' r hp'
          simpa using this
        have hkk : k' = k := by omega
        rw [hkk, hget] at hg'
        injection hg' with hss
        rw [hss] at hc
        rw [hc'] at hc
        exact absurd hc (by simp)
      · rw [analyzeSpots, analyzeSpotsAux_length_filter env _ 0]
        exact filter_length_lt hasCoordsS _ s (List.get?_mem hget) hc
  · intro env spots ms
    refine ⟨analyzeCriticalSpotsAux_length_filter env _ 0, ?_, ?_⟩
    · intro r hr
      rcases analyzeCriticalSpotsAux_mem env _ 0 r hr with
        ⟨k, s, la, lo, hg, hla, hlo, hz⟩
      refine ⟨k, s, hg, by simp [hasCoordsG, hla, hlo], ?_⟩
      rw [hz]
      simp
    · intro k s hget hc
      constructor
      · intro r hr hnum
        rcases analyzeCriticalSpotsAux_mem env _ 0 r hr with
          ⟨k', s', la, lo, hg', hla, hlo, hz⟩
        have h1 : r.spot_number = k' + 1 := by
          rw [hz]
          simp
        have hkk : k' = k := by omega
        rw [hkk, hget] at hg'
        injection hg' with hss
        rw [hss] at hc
        rw [hasCoordsG, hla, hlo] at hc
        simp at hc
      · rw [analyzeCriticalSpots, analyzeCriticalSpotsAux_length_filter env _ 0]
        exact filter_length_lt hasCoordsG _ s (List.get?_mem hget) hc

/-- Witness for C10: a concrete coordinate-less spot yields an empty result
list, strictly shorter than the one-element slice. -/
theorem c10_missing_coords_skipped_w :
    ([spotNoCoords].take 1).get? 0 = some spotNoCoords ∧
      hasCoordsS spotNoCoords = false ∧
      (analyzeSpots envW [spotNoCoords] 1).length < ([spotNoCoords].take 1).length :=
  ⟨rfl, by decide,
    ((c10_missing_coords_skipped.1 envW [spotNoCoords] 1).2.2 0 spotNoCoords
      rfl (by decide)).2⟩
